import Mathlib

/-!
# PumpkinSeed/tunnel: a shallow embedding of `tunnel.go`

The Go file is embedded as pure Lean functions.  Calls that leave the program
(file system, sockets, the SSH library) are answered by a `World` and recorded
as `Event`s in a trace; `log.Fatal` ends the process, which a `Result` records.
-/

namespace tunnel

/-! ## Formatting (`fmt.Sprintf` with the verbs used by the source) -/

/-- Base-10 rendering of a Go `int`, as the verb `%d` prints it: a minus sign for
negative values, then the decimal digits without leading zeros. -/
def formatInt : Int → List Char
  | Int.ofNat m => Nat.toDigits 10 m
  | Int.negSucc m => '-' :: Nat.toDigits 10 (m + 1)

/-- An operand of `fmt.Sprintf`. -/
inductive Arg where
  | str (s : String)
  | int (i : Int)
  deriving DecidableEq, Repr

/-- The verbs of `fmt.Sprintf` that `tunnel.go` uses on operands of the matching
kind: `%s` prints a string operand as it is, `%d` prints an integer operand in
base 10, and every other character of the format is copied. -/
def sprintfChars : List Char → List Arg → List Char
  | '%' :: 's' :: rest, Arg.str s :: args => s.data ++ sprintfChars rest args
  | '%' :: 'd' :: rest, Arg.int i :: args => formatInt i ++ sprintfChars rest args
  | c :: rest, args => c :: sprintfChars rest args
  | [], _ => []

/-- The call `fmt.Sprintf(format, args...)`. -/
def Sprintf (format : String) (args : List Arg) : String :=
  String.mk (sprintfChars format.data args)

/-! ## Data model -/

/-- The Go struct `Endpoint`. -/
structure Endpoint where
  Host : String
  Port : Int
  deriving DecidableEq, Repr

/-- The method `Endpoint.String` (tunnel.go, lines 131-133):
`fmt.Sprintf("%s:%d", endpoint.Host, endpoint.Port)`. -/
def Endpoint.String (endpoint : Endpoint) : String :=
  Sprintf "%s:%d" [Arg.str endpoint.Host, Arg.int endpoint.Port]

/-- A Go `error` value, identified by its message; `nil` is `none` of `Option Error`. -/
abbrev Error := String

/-- An `ssh.Signer`, as produced by `ssh.ParsePrivateKey`. -/
structure Signer where
  id : Nat
  deriving DecidableEq, Repr

/-- A `net.Listener`. -/
structure Listener where
  id : Nat
  deriving DecidableEq, Repr

/-- A `net.Conn`: an accepted connection, or a channel opened over an SSH session. -/
structure Conn where
  id : Nat
  deriving DecidableEq, Repr

/-- An `*ssh.Client`: an established SSH session. -/
structure Client where
  id : Nat
  deriving DecidableEq, Repr

/-- An `ssh.AuthMethod`, as built by `ssh.PublicKeys(signers...)` or `ssh.Password(secret)`. -/
inductive AuthMethod where
  | PublicKeys (signers : List Signer)
  | Password (secret : String)
  deriving DecidableEq, Repr

/-- The fields of `ssh.ClientConfig` that the source sets. -/
structure ClientConfig where
  User : String
  Auth : List AuthMethod
  deriving DecidableEq, Repr

/-- The Go struct `SSHTunnel`. -/
structure SSHTunnel where
  Local : Endpoint
  Server : Endpoint
  Remote : Endpoint
  Config : ClientConfig
  deriving DecidableEq, Repr

/-- The Go struct `Tunnel`, the configuration container. -/
structure Tunnel where
  LocalHost : String
  LocalPort : Int
  ServerHost : String
  ServerPort : Int
  RemoteHost : String
  RemotePort : Int
  Username : String
  Password : String
  UseRSAKeysForAuth : Bool
  Path : String
  deriving DecidableEq, Repr

/-! ## Effects -/

/-- A resource that can be closed. -/
inductive Handle where
  | listener (l : Listener)
  | conn (c : Conn)
  | client (c : Client)
  deriving DecidableEq, Repr

/-- The body of a `go` statement of the source. -/
inductive Task where
  | forward (tunnel : SSHTunnel) (localConn : Conn)
  | copyConn (writer reader : Conn)
  deriving DecidableEq, Repr

/-- One observable action of the program, in program order. -/
inductive Event where
  | readFile (file : String)
  | listen (network address : String)
  | accept (listener : Listener)
  | close (h : Handle)
  | sshDial (network addr : String) (config : ClientConfig)
  | clientDial (client : Client) (network addr : String)
  | copy (writer reader : Conn)
  | printf (out : String)
  | logFatal (msg : String)
  | go (task : Task)
  deriving DecidableEq, Repr

/-- The answers of everything outside the program, one field per external call of the
source: `ioutil.ReadFile`, `ssh.ParsePrivateKey`, `net.Listen`, `listener.Accept`,
`ssh.Dial`, `serverConn.Dial` and `io.Copy`. `Accept l k` is the answer to the call
number `k` (from 0) of `l.Accept()`; `Copy` gives the pair `(written, err)`. -/
structure World where
  ReadFile : String → Except Error (List Nat)
  ParsePrivateKey : List Nat → Except Error Signer
  Listen : String → String → Except Error Listener
  Accept : Listener → Nat → Except Error Conn
  sshDial : String → String → ClientConfig → Except Error Client
  clientDial : Client → String → String → Except Error Conn
  Copy : Conn → Conn → Nat × Option Error

/-- How a piece of code ended: it returned a value, it ended the whole process
(`os.Exit`), or it is still inside its loop when the fuel of the model ran out. -/
inductive Result (α : Type) where
  | returned (a : α)
  | exited (code : Int)
  | running
  deriving DecidableEq, Repr

/-- A run of a piece of code: the events it performed and how it ended. -/
structure Run (α : Type) where
  trace : List Event
  result : Result α
  deriving DecidableEq, Repr

/-- Returning a value without any event. -/
def Run.pure {α : Type} (a : α) : Run α :=
  { trace := [], result := Result.returned a }

/-- Sequencing: the continuation runs only if the first part returned. -/
def Run.bind {α β : Type} (m : Run α) (f : α → Run β) : Run β :=
  match m.result with
  | Result.returned a => { trace := m.trace ++ (f a).trace, result := (f a).result }
  | Result.exited code => { trace := m.trace, result := Result.exited code }
  | Result.running => { trace := m.trace, result := Result.running }

/-- Performing one event. -/
def emit (e : Event) : Run Unit :=
  { trace := [e], result := Result.returned () }

/-- The call `log.Fatal(err)`: the message is logged and the process exits with status 1;
deferred calls do not run and nothing after it is executed. -/
def logFatal (err : Error) : Run Unit :=
  { trace := [Event.logFatal err], result := Result.exited 1 }

/-- A `defer`red close: it runs when the body returns, not when the process exits. -/
def Run.defer {α : Type} (h : Handle) (body : Run α) : Run α :=
  match body.result with
  | Result.returned a => { trace := body.trace ++ [Event.close h], result := Result.returned a }
  | Result.exited code => { trace := body.trace, result := Result.exited code }
  | Result.running => { trace := body.trace, result := Result.running }

/-! ## The program -/

/-- The function `New` (tunnel.go, lines 44-54); the fields it does not set have
their Go zero values. -/
def New (lh sh rh : String) (lp sp rp : Int) : Tunnel :=
  { LocalHost := lh
    LocalPort := lp
    ServerHost := sh
    ServerPort := sp
    RemoteHost := rh
    RemotePort := rp
    Username := ""
    Password := ""
    UseRSAKeysForAuth := false
    Path := "" }

/-- The method `AuthWithRSAKey` (lines 57-61); the pointer receiver is the argument
and the updated struct is the value. -/
def Tunnel.AuthWithRSAKey (t : Tunnel) (un path : String) : Tunnel :=
  { t with UseRSAKeysForAuth := true, Username := un, Path := path }

/-- The method `AuthWithPassword` (lines 64-68). -/
def Tunnel.AuthWithPassword (t : Tunnel) (un password : String) : Tunnel :=
  { t with UseRSAKeysForAuth := false, Username := un, Password := password }

/-- The function `getKeyFile` (lines 119-129). -/
def getKeyFile (w : World) (file : String) : Run (Except Error Signer) :=
  Run.bind (emit (Event.readFile file)) fun _ =>
    match w.ReadFile file with
    | Except.error err => Run.pure (Except.error err)
    | Except.ok buf =>
      match w.ParsePrivateKey buf with
      | Except.error err => Run.pure (Except.error err)
      | Except.ok key => Run.pure (Except.ok key)

/-- The closure `copyConn` of `forward` (lines 166-171). -/
def copyConn (w : World) (writer reader : Conn) : Run Unit :=
  Run.bind (emit (Event.copy writer reader)) fun _ =>
    match (w.Copy writer reader).2 with
    | some err => emit (Event.printf (Sprintf "io.Copy error: %s" [Arg.str err]))
    | none => Run.pure ()

/-- The method `SSHTunnel.forward` (lines 153-175). -/
def SSHTunnel.forward (w : World) (tunnel : SSHTunnel) (localConn : Conn) : Run Unit :=
  Run.bind (emit (Event.sshDial "tcp" tunnel.Server.String tunnel.Config)) fun _ =>
    match w.sshDial "tcp" tunnel.Server.String tunnel.Config with
    | Except.error err =>
      emit (Event.printf (Sprintf "Server dial error: %s\n" [Arg.str err]))
    | Except.ok serverConn =>
      Run.bind (emit (Event.clientDial serverConn "tcp" tunnel.Remote.String)) fun _ =>
        match w.clientDial serverConn "tcp" tunnel.Remote.String with
        | Except.error err =>
          emit (Event.printf (Sprintf "Remote dial error: %s\n" [Arg.str err]))
        | Except.ok remoteConn =>
          Run.bind (emit (Event.go (Task.copyConn localConn remoteConn))) fun _ =>
            emit (Event.go (Task.copyConn remoteConn localConn))

/-- What a task started by `go` does when it is scheduled. -/
def Task.run (w : World) : Task → Run Unit
  | Task.forward tunnel localConn => tunnel.forward w localConn
  | Task.copyConn writer reader => tunnel.copyConn w writer reader

/-- The `for` statement of `SSHTunnel.start` (lines 143-150): `fuel` bounds the number
of iterations the model follows, `k` counts the calls of `Accept` made so far. -/
def SSHTunnel.acceptLoop (w : World) (tunnel : SSHTunnel) (listener : Listener) :
    Nat → Nat → Run (Option Error)
  | 0, _ => { trace := [], result := Result.running }
  | fuel + 1, k =>
    Run.bind (emit (Event.accept listener)) fun _ =>
      match w.Accept listener k with
      | Except.error err =>
        Run.bind (logFatal err) fun _ => Run.pure (some err)
      | Except.ok conn =>
        Run.bind (emit (Event.go (Task.forward tunnel conn))) fun _ =>
          SSHTunnel.acceptLoop w tunnel listener fuel (k + 1)

/-- The method `SSHTunnel.start` (lines 135-151). -/
def SSHTunnel.start (w : World) (fuel : Nat) (tunnel : SSHTunnel) : Run (Option Error) :=
  Run.bind (emit (Event.listen "tcp" tunnel.Local.String)) fun _ =>
    match w.Listen "tcp" tunnel.Local.String with
    | Except.error err =>
      Run.bind (logFatal err) fun _ => Run.pure (some err)
    | Except.ok listener =>
      Run.defer (Handle.listener listener) (tunnel.acceptLoop w listener fuel 0)

/-- The first part of `Tunnel.Setup` (lines 72-96): the value of the local variable
`sshConfig`, or the error with which `Setup` returns before reaching line 98. -/
def Tunnel.sshConfig (w : World) (t : Tunnel) : Run (Except Error ClientConfig) :=
  if t.Username = "" then
    Run.pure (Except.error "Authentication not found")
  else if t.UseRSAKeysForAuth then
    Run.bind (getKeyFile w t.Path) fun r =>
      match r with
      | Except.error err => Run.pure (Except.error err)
      | Except.ok key =>
        Run.pure (Except.ok { User := t.Username, Auth := [AuthMethod.PublicKeys [key]] })
  else
    Run.pure (Except.ok { User := t.Username, Auth := [AuthMethod.Password t.Password] })

/-- The method `Tunnel.Setup` (lines 71-117): the configuration block above, then
lines 98-116, where the value returned by `start` is dropped and `nil` is returned. -/
def Tunnel.Setup (w : World) (fuel : Nat) (t : Tunnel) : Run (Option Error) :=
  Run.bind (t.sshConfig w) fun r =>
    match r with
    | Except.error err => Run.pure (some err)
    | Except.ok sshConfig =>
      let tunnelConf : SSHTunnel :=
        { Config := sshConfig
          Local := { Host := t.LocalHost, Port := t.LocalPort }
          Server := { Host := t.ServerHost, Port := t.ServerPort }
          Remote := { Host := t.RemoteHost, Port := t.RemotePort } }
      Run.bind (tunnelConf.start w fuel) fun _ => Run.pure none

/-! ## Definitions used to state the properties -/

/-- The decimal rendering the specification speaks of: the digits of the absolute value
in base 10, most significant first, `0` for zero, and a leading minus sign for a
negative value. -/
def decimalSpec (p : Int) : String :=
  String.mk ((if p < 0 then ['-'] else []) ++
    (if p = 0 then ['0'] else ((Nat.digits 10 p.natAbs).reverse.map Nat.digitChar)))

/-- The value of the local variable `tunnelConf` of `Setup` (lines 98-112) for the
tunnel `t` and the configuration `sshConfig`. -/
def Tunnel.tunnelConf (t : Tunnel) (sshConfig : ClientConfig) : SSHTunnel :=
  { Config := sshConfig
    Local := { Host := t.LocalHost, Port := t.LocalPort }
    Server := { Host := t.ServerHost, Port := t.ServerPort }
    Remote := { Host := t.RemoteHost, Port := t.RemotePort } }

/-- One call of an authentication selector, with its arguments. -/
inductive AuthCall where
  | rsaKey (un path : String)
  | password (un password : String)
  deriving DecidableEq, Repr

/-- Making one selector call on a tunnel. -/
def Tunnel.applyCall (t : Tunnel) : AuthCall → Tunnel
  | AuthCall.rsaKey un path => t.AuthWithRSAKey un path
  | AuthCall.password un password => t.AuthWithPassword un password

/-- Making a sequence of selector calls, first to last. -/
def Tunnel.applyCalls (t : Tunnel) (calls : List AuthCall) : Tunnel :=
  calls.foldl Tunnel.applyCall t

/-- What `start` does when `Accept` succeeds `n` times, returning `conns 0`, ...,
`conns (n - 1)`: each accept is followed by the start of one forwarder task. -/
def dispatched (tunnel : SSHTunnel) (listener : Listener) (conns : Nat → Conn) :
    Nat → Nat → List Event
  | _, 0 => []
  | k, n + 1 =>
    Event.accept listener :: Event.go (Task.forward tunnel (conns k)) ::
      dispatched tunnel listener conns (k + 1) n

/-- The tasks started by the `go` statements of a trace, in order. -/
def spawned (tr : List Event) : List Task :=
  tr.filterMap fun e =>
    match e with
    | Event.go task => some task
    | _ => none

/-- A sample environment: the key file `id_rsa` exists and parses, only the address
`127.0.0.1:8080` can be bound, `Accept` succeeds twice and then fails, the SSH server
is `s:22` and only `r:80` can be reached from it. -/
def sampleWorld : World :=
  { ReadFile := fun f =>
      if f = "id_rsa" then Except.ok [1, 2, 3] else Except.error "open: no such file"
    ParsePrivateKey := fun b =>
      if b = [1, 2, 3] then Except.ok { id := 7 } else Except.error "ssh: no key found"
    Listen := fun _ a =>
      if a = "127.0.0.1:8080" then Except.ok { id := 1 }
      else Except.error "listen: address already in use"
    Accept := fun _ k =>
      if k < 2 then Except.ok { id := k } else Except.error "accept: closed"
    sshDial := fun _ a _ =>
      if a = "s:22" then Except.ok { id := 3 } else Except.error "dial: refused"
    clientDial := fun _ _ a =>
      if a = "r:80" then Except.ok { id := 9 } else Except.error "chan: refused"
    Copy := fun _ _ => (0, none) }

/-- A sample forwarder configuration whose remote Endpoint `r:81` cannot be reached. -/
def sampleTunnel : SSHTunnel :=
  { Local := { Host := "127.0.0.1", Port := 8080 }
    Server := { Host := "s", Port := 22 }
    Remote := { Host := "r", Port := 81 }
    Config := { User := "u", Auth := [AuthMethod.Password "p"] } }

/-! ## Decimal rendering -/

theorem digitChar_lt_ten_ne_colon (d : Nat) (h : d < 10) : Nat.digitChar d ≠ ':' := by
  interval_cases d <;> decide

theorem digitChar_lt_ten_ne_minus (d : Nat) (h : d < 10) : Nat.digitChar d ≠ '-' := by
  interval_cases d <;> decide

theorem digitChar_inj_lt_ten (a b : Nat) (ha : a < 10) (hb : b < 10)
    (h : Nat.digitChar a = Nat.digitChar b) : a = b := by
  interval_cases a <;> interval_cases b <;> first | rfl | (exact absurd h (by decide))

theorem toDigitsCore_eq_digits (fuel : Nat) :
    ∀ (n : Nat) (acc : List Char), n < fuel → 0 < n →
      Nat.toDigitsCore 10 fuel n acc
        = ((Nat.digits 10 n).reverse.map Nat.digitChar) ++ acc := by
  induction fuel with
  | zero => intro n acc h; omega
  | succ fuel ih =>
    intro n acc hlt hpos
    rw [Nat.digits_def' (by norm_num) hpos]
    simp only [Nat.toDigitsCore]
    by_cases hq : n / 10 = 0
    · simp [hq]
    · simp only [hq, if_false]
      rw [ih (n / 10) _ (by omega) (by omega)]
      simp

theorem toDigits_eq_digits (n : Nat) (hpos : 0 < n) :
    Nat.toDigits 10 n = (Nat.digits 10 n).reverse.map Nat.digitChar := by
  unfold Nat.toDigits
  rw [toDigitsCore_eq_digits (n + 1) n [] (by omega) hpos]
  simp

theorem toDigits_zero : Nat.toDigits 10 0 = ['0'] := by decide

theorem formatInt_eq_decimalSpec (p : Int) : String.mk (formatInt p) = decimalSpec p := by
  cases p with
  | ofNat m =>
    rcases Nat.eq_zero_or_pos m with h | h
    · subst h; decide
    · have h1 : ¬ ((Int.ofNat m) < 0) := by simp
      have h2 : ¬ ((Int.ofNat m) = 0) := by simp; omega
      simp only [formatInt, decimalSpec, h1, h2, if_false, toDigits_eq_digits m h]
      simp
  | negSucc m =>
    have h1 : (Int.negSucc m) < 0 := Int.negSucc_lt_zero m
    have h2 : ¬ ((Int.negSucc m) = 0) := by simp
    simp only [formatInt, decimalSpec, h1, h2, if_true, if_false,
      toDigits_eq_digits (m + 1) (by omega)]
    simp [Int.natAbs]


theorem toDigits_all_digit (n : Nat) :
    ∀ c ∈ Nat.toDigits 10 n, ∃ d, d < 10 ∧ c = Nat.digitChar d := by
  rcases Nat.eq_zero_or_pos n with h | h
  · subst h
    intro c hc
    rw [toDigits_zero] at hc
    simp at hc
    exact ⟨0, by norm_num, by rw [hc]; rfl⟩
  · rw [toDigits_eq_digits n h]
    intro c hc
    simp only [List.mem_map, List.mem_reverse] at hc
    obtain ⟨d, hd, rfl⟩ := hc
    exact ⟨d, Nat.digits_lt_base (by norm_num) hd, rfl⟩

theorem toDigits_injective (a b : Nat) (h : Nat.toDigits 10 a = Nat.toDigits 10 b) : a = b := by
  have key : ∀ n, 0 < n → Nat.toDigits 10 n ≠ ['0'] := by
    intro n hn hc
    rw [toDigits_eq_digits n hn] at hc
    have hrev := congrArg List.reverse hc
    simp only [← List.map_reverse, List.reverse_reverse, List.reverse_singleton] at hrev
    have hlast := Nat.getLast_digit_ne_zero 10 (Nat.pos_iff_ne_zero.mp hn)
    cases hd : Nat.digits 10 n with
    | nil => rw [hd] at hrev; simp at hrev
    | cons x xs =>
      rw [hd] at hrev
      simp only [List.map_cons, List.cons.injEq, List.map_eq_nil_iff] at hrev
      obtain ⟨hx, hxs⟩ := hrev
      subst hxs
      have hx10 : x < 10 := Nat.digits_lt_base (by norm_num) (by rw [hd]; simp)
      have hx0 : x = 0 := digitChar_inj_lt_ten x 0 hx10 (by norm_num) hx
      simp only [hd, List.getLast_singleton] at hlast
      exact hlast hx0
  rcases Nat.eq_zero_or_pos a with ha | ha <;> rcases Nat.eq_zero_or_pos b with hb | hb
  · omega
  · subst ha; rw [toDigits_zero] at h; exact absurd h.symm (key b hb)
  · subst hb; rw [toDigits_zero] at h; exact absurd h (key a ha)
  · rw [toDigits_eq_digits a ha, toDigits_eq_digits b hb] at h
    have h2 := congrArg List.reverse h
    simp only [← List.map_reverse, List.reverse_reverse] at h2
    have hinj : ∀ (l1 l2 : List Nat), (∀ x ∈ l1, x < 10) → (∀ x ∈ l2, x < 10) →
        l1.map Nat.digitChar = l2.map Nat.digitChar → l1 = l2 := by
      intro l1
      induction l1 with
      | nil => intro l2 _ _ h; cases l2 with
        | nil => rfl
        | cons y ys => simp at h
      | cons x xs ih =>
        intro l2 h1 h2 h
        cases l2 with
        | nil => simp at h
        | cons y ys =>
          simp only [List.map_cons, List.cons.injEq] at h
          have hxy := digitChar_inj_lt_ten x y (h1 x (by simp)) (h2 y (by simp)) h.1
          have := ih ys (fun z hz => h1 z (by simp [hz])) (fun z hz => h2 z (by simp [hz])) h.2
          rw [hxy, this]
    have h3 := hinj _ _ (fun x hx => Nat.digits_lt_base (by norm_num) hx)
      (fun x hx => Nat.digits_lt_base (by norm_num) hx) h2
    exact Nat.digits_inj_iff.mp h3

theorem formatInt_no_colon (p : Int) : ':' ∉ formatInt p := by
  intro hmem
  cases p with
  | ofNat m =>
    obtain ⟨d, hd, hc⟩ := toDigits_all_digit m ':' hmem
    exact digitChar_lt_ten_ne_colon d hd hc.symm
  | negSucc m =>
    simp only [formatInt, List.mem_cons] at hmem
    rcases hmem with h | h
    · exact absurd h (by decide)
    · obtain ⟨d, hd, hc⟩ := toDigits_all_digit (m + 1) ':' h
      exact digitChar_lt_ten_ne_colon d hd hc.symm

theorem formatInt_injective (p q : Int) (h : formatInt p = formatInt q) : p = q := by
  have headDigit : ∀ n : Nat, ∀ rest, Nat.toDigits 10 n ≠ '-' :: rest := by
    intro n rest hc
    obtain ⟨d, hd, hdc⟩ := toDigits_all_digit n '-' (by rw [hc]; simp)
    exact digitChar_lt_ten_ne_minus d hd hdc.symm
  cases p with
  | ofNat m =>
    cases q with
    | ofNat k => simp only [formatInt] at h; rw [toDigits_injective m k h]
    | negSucc k => simp only [formatInt] at h; exact absurd h (headDigit m _)
  | negSucc m =>
    cases q with
    | ofNat k => simp only [formatInt] at h; exact absurd h.symm (headDigit k _)
    | negSucc k =>
      simp only [formatInt, List.cons.injEq, true_and] at h
      have := toDigits_injective _ _ h
      have hmk : m = k := by omega
      rw [hmk]

theorem append_sep_inj (sep : Char) :
    ∀ (x y a b : List Char), sep ∉ x → sep ∉ y →
      a ++ sep :: x = b ++ sep :: y → a = b ∧ x = y := by
  intro x y a
  induction a with
  | nil =>
    intro b hx hy h
    cases b with
    | nil => simp at h; exact ⟨rfl, h⟩
    | cons c cs =>
      simp only [List.nil_append, List.cons_append, List.cons.injEq] at h
      exfalso; apply hx; rw [h.2]; simp
  | cons c cs ih =>
    intro b hx hy h
    cases b with
    | nil =>
      simp only [List.nil_append, List.cons_append, List.cons.injEq] at h
      exfalso; apply hy; rw [← h.2]; simp
    | cons e es =>
      simp only [List.cons_append, List.cons.injEq] at h
      obtain ⟨h1, h2⟩ := ih es hx hy h.2
      exact ⟨by rw [h.1, h1], h2⟩

theorem Endpoint_String_eq (endpoint : Endpoint) :
    endpoint.String = String.mk (endpoint.Host.data ++ ':' :: formatInt endpoint.Port) := by
  simp [Endpoint.String, Sprintf, sprintfChars]

/-! ## Endpoint -/

theorem Endpoint_String_decimal (endpoint : Endpoint) :
    endpoint.String = endpoint.Host ++ ":" ++ decimalSpec endpoint.Port := by
  rw [Endpoint_String_eq, ← formatInt_eq_decimalSpec]
  apply String.ext
  simp

/-- C1: for every host `h` and every integer port `p`, zero and negative values
included, the string form of the Endpoint is exactly `h`, one colon, and the base-10
rendering of `p`. -/
theorem Endpoint_String_exact (h : String) (p : Int) :
    Endpoint.String { Host := h, Port := p } = h ++ ":" ++ decimalSpec p :=
  Endpoint_String_decimal { Host := h, Port := p }

/-- C10: the string form is injective: two Endpoints with the same string form have
the same host and the same port, whatever characters the hosts contain. -/
theorem Endpoint_String_injective (h1 h2 : String) (p1 p2 : Int)
    (heq : Endpoint.String { Host := h1, Port := p1 }
      = Endpoint.String { Host := h2, Port := p2 }) :
    h1 = h2 ∧ p1 = p2 := by
  rw [Endpoint_String_eq, Endpoint_String_eq] at heq
  have hdata := congrArg String.data heq
  simp only at hdata
  obtain ⟨ha, hb⟩ :=
    append_sep_inj ':' _ _ _ _ (formatInt_no_colon p1) (formatInt_no_colon p2) hdata
  exact ⟨String.ext ha, formatInt_injective p1 p2 hb⟩

/-- Witness of C10 at the host `a:b`, which itself contains a colon, and port 7. -/
theorem Endpoint_String_injective_witness :
    Endpoint.String { Host := "a:b", Port := 7 } = Endpoint.String { Host := "a:b", Port := 7 }
      ∧ (("a:b" : String) = "a:b" ∧ (7 : Int) = 7) :=
  ⟨rfl, Endpoint_String_injective "a:b" "a:b" 7 7 rfl⟩

theorem decimalSpec_examples :
    decimalSpec 0 = "0" ∧ decimalSpec 8080 = "8080" ∧ decimalSpec (-22) = "-22" := by
  refine ⟨?_, ?_, ?_⟩ <;> simp [decimalSpec] <;> decide

theorem Endpoint_String_examples :
    Endpoint.String { Host := "127.0.0.1", Port := 8080 } = "127.0.0.1:8080"
      ∧ Endpoint.String { Host := "", Port := 0 } = ":0"
      ∧ Endpoint.String { Host := "a:b", Port := -5 } = "a:b:-5" := by
  decide

/-! ## Setup: resolving the credentials -/

/-- C2: a tunnel with an empty username makes `Setup` return the error
`Authentication not found` with an empty trace: no key file is read, no listener is
bound, nothing is dialled. This covers every value of `New` and every tunnel on which
a selector was called with an empty username. -/
theorem Setup_missing_credentials (w : World) (fuel : Nat) (t : Tunnel)
    (h : t.Username = "") :
    t.Setup w fuel
        = { trace := [], result := Result.returned (some "Authentication not found") }
      ∧ (∀ (lh sh rh : String) (lp sp rp : Int), (New lh sh rh lp sp rp).Setup w fuel
          = { trace := [], result := Result.returned (some "Authentication not found") })
      ∧ (∀ (t2 : Tunnel) (path : String), (t2.AuthWithRSAKey "" path).Setup w fuel
          = { trace := [], result := Result.returned (some "Authentication not found") })
      ∧ (∀ (t2 : Tunnel) (password : String), (t2.AuthWithPassword "" password).Setup w fuel
          = { trace := [], result := Result.returned (some "Authentication not found") }) := by
  refine ⟨?_, ?_, ?_, ?_⟩
  · simp [Tunnel.Setup, Tunnel.sshConfig, h, Run.bind, Run.pure]
  · intros; simp [Tunnel.Setup, Tunnel.sshConfig, New, Run.bind, Run.pure]
  · intros; simp [Tunnel.Setup, Tunnel.sshConfig, Tunnel.AuthWithRSAKey, Run.bind, Run.pure]
  · intros; simp [Tunnel.Setup, Tunnel.sshConfig, Tunnel.AuthWithPassword, Run.bind, Run.pure]

/-- Witness of C2: a tunnel fresh from `New`, in the sample environment. -/
theorem Setup_missing_credentials_witness :
    (New "127.0.0.1" "s" "r" 8080 22 80).Setup sampleWorld 3
        = { trace := [], result := Result.returned (some "Authentication not found") }
      ∧ (∀ (lh sh rh : String) (lp sp rp : Int), (New lh sh rh lp sp rp).Setup sampleWorld 3
          = { trace := [], result := Result.returned (some "Authentication not found") })
      ∧ (∀ (t2 : Tunnel) (path : String), (t2.AuthWithRSAKey "" path).Setup sampleWorld 3
          = { trace := [], result := Result.returned (some "Authentication not found") })
      ∧ (∀ (t2 : Tunnel) (password : String),
          (t2.AuthWithPassword "" password).Setup sampleWorld 3
          = { trace := [], result := Result.returned (some "Authentication not found") }) :=
  Setup_missing_credentials sampleWorld 3 (New "127.0.0.1" "s" "r" 8080 22 80) rfl

/-- C4: with a username and key authentication selected, if the key file cannot be
read, or its contents do not parse, `Setup` returns that error and its whole trace is
the one file read: `start` is not run, so nothing is bound and nothing is dialled. -/
theorem Setup_key_load_error (w : World) (fuel : Nat) (t : Tunnel) (err : Error)
    (hu : t.Username ≠ "") (hk : t.UseRSAKeysForAuth = true)
    (hfail : w.ReadFile t.Path = Except.error err
      ∨ ∃ buf, w.ReadFile t.Path = Except.ok buf ∧ w.ParsePrivateKey buf = Except.error err) :
    t.Setup w fuel
      = { trace := [Event.readFile t.Path], result := Result.returned (some err) } := by
  rcases hfail with hr | ⟨buf, hr, hp⟩
  · simp [Tunnel.Setup, Tunnel.sshConfig, getKeyFile, hu, hk, hr, Run.bind, Run.pure, emit]
  · simp [Tunnel.Setup, Tunnel.sshConfig, getKeyFile, hu, hk, hr, hp, Run.bind, Run.pure, emit]

/-- Witness of C4: the key file `nokey` does not exist in the sample environment. -/
theorem Setup_key_load_error_witness :
    ((New "127.0.0.1" "s" "r" 8080 22 80).AuthWithRSAKey "u" "nokey").Setup sampleWorld 3
      = { trace := [Event.readFile "nokey"],
          result := Result.returned (some "open: no such file") } :=
  Setup_key_load_error sampleWorld 3
    ((New "127.0.0.1" "s" "r" 8080 22 80).AuthWithRSAKey "u" "nokey") "open: no such file"
    (by decide) rfl (Or.inl rfl)

theorem applyCalls_snoc (t : Tunnel) (calls : List AuthCall) (last : AuthCall) :
    t.applyCalls (calls ++ [last]) = (t.applyCalls calls).applyCall last := by
  simp [Tunnel.applyCalls, List.foldl_append]

theorem applyCall_topology (t : Tunnel) (c : AuthCall) :
    (t.applyCall c).LocalHost = t.LocalHost ∧ (t.applyCall c).LocalPort = t.LocalPort
      ∧ (t.applyCall c).ServerHost = t.ServerHost ∧ (t.applyCall c).ServerPort = t.ServerPort
      ∧ (t.applyCall c).RemoteHost = t.RemoteHost
      ∧ (t.applyCall c).RemotePort = t.RemotePort := by
  cases c <;> simp [Tunnel.applyCall, Tunnel.AuthWithRSAKey, Tunnel.AuthWithPassword]

theorem applyCalls_topology (calls : List AuthCall) : ∀ (t : Tunnel),
    (t.applyCalls calls).LocalHost = t.LocalHost ∧ (t.applyCalls calls).LocalPort = t.LocalPort
      ∧ (t.applyCalls calls).ServerHost = t.ServerHost
      ∧ (t.applyCalls calls).ServerPort = t.ServerPort
      ∧ (t.applyCalls calls).RemoteHost = t.RemoteHost
      ∧ (t.applyCalls calls).RemotePort = t.RemotePort := by
  induction calls with
  | nil => intro t; simp [Tunnel.applyCalls]
  | cons c cs ih =>
    intro t
    have h1 := ih (t.applyCall c)
    have h2 := applyCall_topology t c
    simp only [Tunnel.applyCalls, List.foldl_cons] at h1 ⊢
    obtain ⟨a1, a2, a3, a4, a5, a6⟩ := h1
    obtain ⟨b1, b2, b3, b4, b5, b6⟩ := h2
    exact ⟨a1.trans b1, a2.trans b2, a3.trans b3, a4.trans b4, a5.trans b5, a6.trans b6⟩

/-! ## The forwarder -/

theorem Sprintf_server_dial_error (err : String) :
    Sprintf "Server dial error: %s\n" [Arg.str err] = "Server dial error: " ++ err ++ "\n" := by
  apply String.ext
  simp [Sprintf, sprintfChars]

theorem Sprintf_remote_dial_error (err : String) :
    Sprintf "Remote dial error: %s\n" [Arg.str err] = "Remote dial error: " ++ err ++ "\n" := by
  apply String.ext
  simp [Sprintf, sprintfChars]

theorem forward_run (w : World) (tunnel : SSHTunnel) (localConn : Conn) :
    tunnel.forward w localConn
      = { trace := Event.sshDial "tcp" tunnel.Server.String tunnel.Config ::
            (match w.sshDial "tcp" tunnel.Server.String tunnel.Config with
             | Except.error err => [Event.printf ("Server dial error: " ++ err ++ "\n")]
             | Except.ok serverConn =>
               Event.clientDial serverConn "tcp" tunnel.Remote.String ::
                 (match w.clientDial serverConn "tcp" tunnel.Remote.String with
                  | Except.error err => [Event.printf ("Remote dial error: " ++ err ++ "\n")]
                  | Except.ok remoteConn =>
                    [Event.go (Task.copyConn localConn remoteConn),
                     Event.go (Task.copyConn remoteConn localConn)]))
          result := Result.returned () } := by
  unfold SSHTunnel.forward
  cases hs : w.sshDial "tcp" tunnel.Server.String tunnel.Config with
  | error e => simp [Run.bind, emit, Sprintf_server_dial_error]
  | ok serverConn =>
    cases hc : w.clientDial serverConn "tcp" tunnel.Remote.String with
    | error e => simp [Run.bind, emit, hc, Sprintf_remote_dial_error]
    | ok remoteConn => simp [Run.bind, emit, hc]

/-- C7: for every accepted connection `forward` returns normally, and its trace is
the SSH dial to the server Endpoint, then, only if that succeeded, the channel dial to
the remote Endpoint over that session, then, only if that succeeded, the start of two
copy tasks: the first copies from the remote channel to the inbound connection, the
second from the inbound connection to the remote channel. A failed step is followed
by one printed line and nothing else; no step occurs twice. -/
theorem forward_steps (w : World) (tunnel : SSHTunnel) (localConn : Conn) :
    (tunnel.forward w localConn).result = Result.returned ()
      ∧ (tunnel.forward w localConn).trace
        = Event.sshDial "tcp" tunnel.Server.String tunnel.Config ::
          (match w.sshDial "tcp" tunnel.Server.String tunnel.Config with
           | Except.error err => [Event.printf ("Server dial error: " ++ err ++ "\n")]
           | Except.ok serverConn =>
             Event.clientDial serverConn "tcp" tunnel.Remote.String ::
               (match w.clientDial serverConn "tcp" tunnel.Remote.String with
                | Except.error err => [Event.printf ("Remote dial error: " ++ err ++ "\n")]
                | Except.ok remoteConn =>
                  [Event.go (Task.copyConn localConn remoteConn),
                   Event.go (Task.copyConn remoteConn localConn)]))
      ∧ (∀ writer reader : Conn,
          (Task.run w (Task.copyConn writer reader)).trace.head?
            = some (Event.copy writer reader)) := by
  refine ⟨?_, ?_, ?_⟩
  · rw [forward_run]
  · rw [forward_run]
  · intro writer reader
    simp only [Task.run, copyConn]
    cases (w.Copy writer reader).2 with
    | none => simp [Run.bind, emit, Run.pure]
    | some e => simp [Run.bind, emit]

/-- Counterexample to C8: in the sample environment the SSH dial gives session 3, the
channel dial over it fails, and the trace of `forward` has no close of session 3. -/
theorem forward_channel_failure_leaves_session_open :
    sampleWorld.sshDial "tcp" sampleTunnel.Server.String sampleTunnel.Config
        = Except.ok { id := 3 }
      ∧ sampleWorld.clientDial { id := 3 } "tcp" sampleTunnel.Remote.String
        = Except.error "chan: refused"
      ∧ (sampleTunnel.forward sampleWorld { id := 4 }).trace
        = [Event.sshDial "tcp" "s:22" { User := "u", Auth := [AuthMethod.Password "p"] },
           Event.clientDial { id := 3 } "tcp" "r:81",
           Event.printf "Remote dial error: chan: refused\n"]
      ∧ Event.close (Handle.client { id := 3 })
        ∉ (sampleTunnel.forward sampleWorld { id := 4 }).trace :=
  ⟨rfl, rfl, by decide, by decide⟩

/-- C8 as amended: when the SSH dial succeeds and the channel dial fails, `forward`
prints the remote dial error and returns; it starts no copy task and closes nothing,
the SSH session included. -/
theorem forward_channel_failure (w : World) (tunnel : SSHTunnel) (localConn : Conn)
    (serverConn : Client) (err : Error)
    (hs : w.sshDial "tcp" tunnel.Server.String tunnel.Config = Except.ok serverConn)
    (hc : w.clientDial serverConn "tcp" tunnel.Remote.String = Except.error err) :
    tunnel.forward w localConn
        = { trace := [Event.sshDial "tcp" tunnel.Server.String tunnel.Config,
                      Event.clientDial serverConn "tcp" tunnel.Remote.String,
                      Event.printf ("Remote dial error: " ++ err ++ "\n")]
            result := Result.returned () }
      ∧ (∀ h : Handle, Event.close h ∉ (tunnel.forward w localConn).trace)
      ∧ (∀ task : Task, Event.go task ∉ (tunnel.forward w localConn).trace) := by
  have hrun : tunnel.forward w localConn
        = { trace := [Event.sshDial "tcp" tunnel.Server.String tunnel.Config,
                      Event.clientDial serverConn "tcp" tunnel.Remote.String,
                      Event.printf ("Remote dial error: " ++ err ++ "\n")]
            result := Result.returned () } := by
    simp [SSHTunnel.forward, hs, hc, Run.bind, emit, Sprintf_remote_dial_error]
  refine ⟨hrun, ?_, ?_⟩
  · intro h; rw [hrun]; simp
  · intro task; rw [hrun]; simp

/-- Witness of the amended C8 in the sample environment. -/
theorem forward_channel_failure_witness :
    sampleTunnel.forward sampleWorld { id := 4 }
        = { trace := [Event.sshDial "tcp" sampleTunnel.Server.String sampleTunnel.Config,
                      Event.clientDial { id := 3 } "tcp" sampleTunnel.Remote.String,
                      Event.printf ("Remote dial error: " ++ "chan: refused" ++ "\n")]
            result := Result.returned () }
      ∧ (∀ h : Handle, Event.close h ∉ (sampleTunnel.forward sampleWorld { id := 4 }).trace)
      ∧ (∀ task : Task,
          Event.go task ∉ (sampleTunnel.forward sampleWorld { id := 4 }).trace) :=
  forward_channel_failure sampleWorld sampleTunnel { id := 4 } { id := 3 } "chan: refused"
    rfl rfl

/-! ## The listener loop -/

theorem bind_emit {α : Type} (e : Event) (f : Unit → Run α) :
    Run.bind (emit e) f = { trace := e :: (f ()).trace, result := (f ()).result } := by
  simp [Run.bind, emit]

theorem bind_logFatal {α : Type} (err : Error) (f : Unit → Run α) :
    Run.bind (logFatal err) f
      = { trace := [Event.logFatal err], result := Result.exited 1 } := by
  simp [Run.bind, logFatal]

theorem acceptLoop_fatal (w : World) (tunnel : SSHTunnel) (l : Listener)
    (conns : Nat → Conn) (err : Error) :
    ∀ (n fuel k : Nat), (∀ j, j < n → w.Accept l (k + j) = Except.ok (conns (k + j))) →
      w.Accept l (k + n) = Except.error err → n < fuel →
      tunnel.acceptLoop w l fuel k
        = { trace := dispatched tunnel l conns k n
              ++ [Event.accept l, Event.logFatal err]
            result := Result.exited 1 } := by
  intro n
  induction n with
  | zero =>
    intro fuel k _ hfail hlt
    obtain ⟨f, rfl⟩ : ∃ f, fuel = f + 1 := ⟨fuel - 1, by omega⟩
    simp only [Nat.add_zero] at hfail
    simp [SSHTunnel.acceptLoop, hfail, bind_emit, bind_logFatal, dispatched]
  | succ n ih =>
    intro fuel k hok hfail hlt
    obtain ⟨f, rfl⟩ : ∃ f, fuel = f + 1 := ⟨fuel - 1, by omega⟩
    have h0 : w.Accept l k = Except.ok (conns k) := by simpa using hok 0 (by omega)
    have hrec := ih f (k + 1)
      (fun j hj => by
        have := hok (j + 1) (by omega)
        rwa [show k + (j + 1) = k + 1 + j by omega] at this)
      (by rwa [show k + (n + 1) = k + 1 + n by omega] at hfail) (by omega)
    simp [SSHTunnel.acceptLoop, h0, bind_emit, hrec, dispatched]

theorem acceptLoop_running (w : World) (tunnel : SSHTunnel) (l : Listener)
    (conns : Nat → Conn) :
    ∀ (fuel k : Nat), (∀ j, j < fuel → w.Accept l (k + j) = Except.ok (conns (k + j))) →
      tunnel.acceptLoop w l fuel k
        = { trace := dispatched tunnel l conns k fuel, result := Result.running } := by
  intro fuel
  induction fuel with
  | zero => intro k _; simp [SSHTunnel.acceptLoop, dispatched]
  | succ f ih =>
    intro k hok
    have h0 : w.Accept l k = Except.ok (conns k) := by simpa using hok 0 (by omega)
    have hrec := ih (k + 1)
      (fun j hj => by
        have := hok (j + 1) (by omega)
        rwa [show k + (j + 1) = k + 1 + j by omega] at this)
    simp [SSHTunnel.acceptLoop, h0, bind_emit, hrec, dispatched]

theorem acceptLoop_world (w w2 : World) (tunnel : SSHTunnel) (l : Listener)
    (hA : w2.Accept = w.Accept) :
    ∀ (fuel k : Nat), tunnel.acceptLoop w2 l fuel k = tunnel.acceptLoop w l fuel k := by
  intro fuel
  induction fuel with
  | zero => intro k; simp [SSHTunnel.acceptLoop]
  | succ f ih =>
    intro k
    simp only [SSHTunnel.acceptLoop, hA, ih]

theorem spawned_dispatched (tunnel : SSHTunnel) (l : Listener) (conns : Nat → Conn) :
    ∀ (n k : Nat), spawned (dispatched tunnel l conns k n)
      = (List.range' k n).map (fun i => Task.forward tunnel (conns i)) := by
  intro n
  induction n with
  | zero => intro k; simp [dispatched, spawned]
  | succ n ih =>
    intro k
    have := ih (k + 1)
    simp only [spawned] at this
    simp [dispatched, spawned, List.range'_succ, this]

/-- C9: after a successful bind, if `Accept` succeeds `n` times and then fails, `start`
starts exactly `n` forwarder tasks, one per accepted connection and in accept order,
each by a `go` statement and not inline, and then ends the process through
`log.Fatal` with the accept error. While `Accept` has only succeeded, `start` is
still running, and nothing a forwarder meets (dials, copies) enters its run. -/
theorem start_accept_loop (w : World) (tunnel : SSHTunnel) (l : Listener)
    (conns : Nat → Conn) (n : Nat) (err : Error)
    (hbind : w.Listen "tcp" tunnel.Local.String = Except.ok l)
    (hok : ∀ k, k < n → w.Accept l k = Except.ok (conns k))
    (hfail : w.Accept l n = Except.error err) :
    (∀ fuel, n < fuel → tunnel.start w fuel
        = { trace := Event.listen "tcp" tunnel.Local.String ::
              (dispatched tunnel l conns 0 n ++ [Event.accept l, Event.logFatal err])
            result := Result.exited 1 })
      ∧ (∀ fuel, n < fuel → spawned (tunnel.start w fuel).trace
        = (List.range n).map (fun k => Task.forward tunnel (conns k)))
      ∧ (∀ fuel, fuel ≤ n → tunnel.start w fuel
        = { trace := Event.listen "tcp" tunnel.Local.String :: dispatched tunnel l conns 0 fuel
            result := Result.running })
      ∧ (∀ (w2 : World) (l2 : Listener) (conns2 : Nat → Conn),
          w2.Listen "tcp" tunnel.Local.String = Except.ok l2 →
          (∀ k, w2.Accept l2 k = Except.ok (conns2 k)) →
          ∀ fuel, (tunnel.start w2 fuel).result = Result.running)
      ∧ (∀ (w2 : World) (fuel : Nat), w2.Listen = w.Listen → w2.Accept = w.Accept →
          tunnel.start w2 fuel = tunnel.start w fuel) := by
  have hfatal : ∀ fuel, n < fuel → tunnel.start w fuel
        = { trace := Event.listen "tcp" tunnel.Local.String ::
              (dispatched tunnel l conns 0 n ++ [Event.accept l, Event.logFatal err])
            result := Result.exited 1 } := by
    intro fuel hlt
    have hloop := acceptLoop_fatal w tunnel l conns err n fuel 0
      (fun j hj => by simpa using hok j hj) (by simpa using hfail) hlt
    simp [SSHTunnel.start, hbind, bind_emit, hloop, Run.defer]
  refine ⟨hfatal, ?_, ?_, ?_, ?_⟩
  · intro fuel hlt
    rw [hfatal fuel hlt]
    have hs := spawned_dispatched tunnel l conns n 0
    simp only [spawned] at hs
    simp [spawned, List.filterMap_append, hs, List.range_eq_range']
  · intro fuel hle
    have hloop := acceptLoop_running w tunnel l conns fuel 0
      (fun j hj => by simpa using hok j (by omega))
    simp [SSHTunnel.start, hbind, bind_emit, hloop, Run.defer]
  · intro w2 l2 conns2 hb2 hall fuel
    have hloop := acceptLoop_running w2 tunnel l2 conns2 fuel 0 (fun j _ => hall (0 + j))
    simp [SSHTunnel.start, hb2, bind_emit, hloop, Run.defer]
  · intro w2 fuel hL hA
    simp only [SSHTunnel.start, hL]
    cases w.Listen "tcp" tunnel.Local.String with
    | error e => rfl
    | ok l3 => simp only [acceptLoop_world w w2 tunnel l3 hA]

/-- Witness of C9: in the sample environment the bind succeeds with listener 1,
`Accept` succeeds twice and then fails. -/
theorem start_accept_loop_witness :
    sampleWorld.Listen "tcp" sampleTunnel.Local.String = Except.ok { id := 1 }
      ∧ (∀ k, k < 2 → sampleWorld.Accept { id := 1 } k = Except.ok { id := k })
      ∧ sampleWorld.Accept { id := 1 } 2 = Except.error "accept: closed"
      ∧ sampleTunnel.start sampleWorld 5
        = { trace := [Event.listen "tcp" "127.0.0.1:8080",
                      Event.accept { id := 1 },
                      Event.go (Task.forward sampleTunnel { id := 0 }),
                      Event.accept { id := 1 },
                      Event.go (Task.forward sampleTunnel { id := 1 }),
                      Event.accept { id := 1 },
                      Event.logFatal "accept: closed"]
            result := Result.exited 1 } :=
  ⟨rfl, by intro k hk; interval_cases k <;> rfl, rfl,
    (start_accept_loop sampleWorld sampleTunnel { id := 1 } (fun k => { id := k }) 2
      "accept: closed" rfl (by intro k hk; interval_cases k <;> rfl) rfl).1 5 (by decide)⟩

/-! ## Setup: starting the listener -/

theorem Setup_of_config (w : World) (fuel : Nat) (t : Tunnel) (pre : List Event)
    (cfg : ClientConfig)
    (hcfg : t.sshConfig w = { trace := pre, result := Result.returned (Except.ok cfg) }) :
    t.Setup w fuel
      = Run.bind { trace := pre, result := Result.returned () } fun _ =>
          Run.bind (SSHTunnel.start w fuel
            { Config := cfg
              Local := { Host := t.LocalHost, Port := t.LocalPort }
              Server := { Host := t.ServerHost, Port := t.ServerPort }
              Remote := { Host := t.RemoteHost, Port := t.RemotePort } })
            fun _ => Run.pure none := by
  simp [Tunnel.Setup, hcfg, Run.bind]

theorem sshConfig_trace (w : World) (t : Tunnel) :
    (t.sshConfig w).trace = [] ∨ (t.sshConfig w).trace = [Event.readFile t.Path] := by
  unfold Tunnel.sshConfig
  by_cases hu : t.Username = ""
  · simp [hu, Run.pure]
  · by_cases hk : t.UseRSAKeysForAuth = true
    · right
      simp only [hu, hk, if_false, if_true, getKeyFile]
      cases hr : w.ReadFile t.Path with
      | error e => simp [Run.bind, Run.pure, emit]
      | ok buf =>
        cases hp : w.ParsePrivateKey buf with
        | error e => simp [Run.bind, Run.pure, emit, hp]
        | ok key => simp [Run.bind, Run.pure, emit, hp]
    · simp [hu, hk, Run.pure]

theorem acceptLoop_events (w : World) (tunnel : SSHTunnel) (l : Listener) :
    ∀ (fuel k : Nat) (e : Event), e ∈ (tunnel.acceptLoop w l fuel k).trace →
      e = Event.accept l ∨ (∃ conn, e = Event.go (Task.forward tunnel conn))
        ∨ ∃ m, e = Event.logFatal m := by
  intro fuel
  induction fuel with
  | zero => intro k e he; simp [SSHTunnel.acceptLoop] at he
  | succ f ih =>
    intro k e he
    simp only [SSHTunnel.acceptLoop, bind_emit] at he
    cases ha : w.Accept l k with
    | error err =>
      simp only [ha, bind_logFatal, List.mem_cons, List.mem_singleton, List.not_mem_nil,
        or_false] at he
      rcases he with h | h
      · exact Or.inl h
      · exact Or.inr (Or.inr ⟨err, h⟩)
    | ok conn =>
      simp only [ha, bind_emit, List.mem_cons] at he
      rcases he with h | h | h
      · exact Or.inl h
      · exact Or.inr (Or.inl ⟨conn, h⟩)
      · exact ih (k + 1) e h

theorem start_events (w : World) (fuel : Nat) (tunnel : SSHTunnel) :
    (tunnel.start w fuel).trace.head? = some (Event.listen "tcp" tunnel.Local.String)
      ∧ ∀ e, e ∈ (tunnel.start w fuel).trace →
        e = Event.listen "tcp" tunnel.Local.String
          ∨ (∃ l, e = Event.accept l) ∨ (∃ conn, e = Event.go (Task.forward tunnel conn))
          ∨ (∃ m, e = Event.logFatal m) ∨ ∃ h, e = Event.close h := by
  unfold SSHTunnel.start
  rw [bind_emit]
  refine ⟨by simp, ?_⟩
  intro e he
  simp only [List.mem_cons] at he
  rcases he with h | he
  · exact Or.inl h
  · right
    cases hl : w.Listen "tcp" tunnel.Local.String with
    | error err =>
      simp only [hl, bind_logFatal, List.mem_singleton] at he
      exact Or.inr (Or.inr (Or.inl ⟨err, he⟩))
    | ok l =>
      simp only [hl] at he
      have hloop := acceptLoop_events w tunnel l fuel 0
      have hsplit : e ∈ (tunnel.acceptLoop w l fuel 0).trace
          ∨ e = Event.close (Handle.listener l) := by
        unfold Run.defer at he
        cases hres : (tunnel.acceptLoop w l fuel 0).result with
        | returned a => simp only [hres, List.mem_append, List.mem_singleton] at he; exact he
        | exited c => simp only [hres] at he; exact Or.inl he
        | running => simp only [hres] at he; exact Or.inl he
      rcases hsplit with h | h
      · rcases hloop e h with h1 | h1 | h1
        · exact Or.inl ⟨l, h1⟩
        · exact Or.inr (Or.inl h1)
        · exact Or.inr (Or.inr (Or.inl h1))
      · exact Or.inr (Or.inr (Or.inr ⟨_, h⟩))

theorem Setup_trace_of_config (w : World) (fuel : Nat) (t : Tunnel) (pre : List Event)
    (cfg : ClientConfig)
    (hcfg : t.sshConfig w = { trace := pre, result := Result.returned (Except.ok cfg) }) :
    (t.Setup w fuel).trace
      = pre ++ (SSHTunnel.start w fuel
            { Config := cfg
              Local := { Host := t.LocalHost, Port := t.LocalPort }
              Server := { Host := t.ServerHost, Port := t.ServerPort }
              Remote := { Host := t.RemoteHost, Port := t.RemotePort } }).trace := by
  rw [Setup_of_config w fuel t pre cfg hcfg]
  generalize SSHTunnel.start w fuel _ = r
  obtain ⟨tr, res⟩ := r
  cases res <;> simp [Run.bind, Run.pure]

theorem Setup_result_of_config (w : World) (fuel : Nat) (t : Tunnel) (pre : List Event)
    (cfg : ClientConfig)
    (hcfg : t.sshConfig w = { trace := pre, result := Result.returned (Except.ok cfg) }) :
    ∀ e : Error, (t.Setup w fuel).result ≠ Result.returned (some e) := by
  intro e
  rw [Setup_of_config w fuel t pre cfg hcfg]
  generalize SSHTunnel.start w fuel _ = r
  obtain ⟨tr, res⟩ := r
  cases res <;> simp [Run.bind, Run.pure]

/-- C3, the code at a failing input: with password authentication configured and the
local address `127.0.0.1:8081` not bindable, `Setup` does not return the bind error:
`start` calls `log.Fatal` and the process exits with status 1. -/
theorem Setup_bind_failure_exits :
    sampleWorld.Listen "tcp" "127.0.0.1:8081" = Except.error "listen: address already in use"
      ∧ ((New "127.0.0.1" "s" "r" 8081 22 80).AuthWithPassword "u" "p").Setup sampleWorld 3
        = { trace := [Event.listen "tcp" "127.0.0.1:8081",
                      Event.logFatal "listen: address already in use"]
            result := Result.exited 1 }
      ∧ (((New "127.0.0.1" "s" "r" 8081 22 80).AuthWithPassword "u" "p").Setup
          sampleWorld 3).result
        ≠ Result.returned (some "listen: address already in use") :=
  ⟨rfl, by decide, by decide⟩


/-- C6: a tunnel made by `New(lh, sh, rh, lp, sp, rp)`, after any selector calls that
leave it with credentials that resolve, is set up with every host paired with the
port of its own role: the selectors leave the six topology fields as `New` set them,
`Setup` binds the listener on `lh:lp` and on no other address, every task it starts is
a forwarder of that same tunnel, and every forwarder dials the SSH session to `sh:sp`
and opens its channel to `rh:rp`. -/
theorem Setup_topology (w : World) (fuel : Nat) (lh sh rh : String) (lp sp rp : Int)
    (calls : List AuthCall) (t : Tunnel) (tun : SSHTunnel) (pre : List Event)
    (cfg : ClientConfig)
    (ht : t = (New lh sh rh lp sp rp).applyCalls calls)
    (hcfg : t.sshConfig w = { trace := pre, result := Result.returned (Except.ok cfg) })
    (htun : tun = { Local := { Host := lh, Port := lp }
                    Server := { Host := sh, Port := sp }
                    Remote := { Host := rh, Port := rp }
                    Config := cfg }) :
    (t.LocalHost = lh ∧ t.LocalPort = lp ∧ t.ServerHost = sh ∧ t.ServerPort = sp
        ∧ t.RemoteHost = rh ∧ t.RemotePort = rp)
      ∧ (∃ rest, (t.Setup w fuel).trace
          = pre ++ Event.listen "tcp" (lh ++ ":" ++ decimalSpec lp) :: rest)
      ∧ (∀ net addr, Event.listen net addr ∈ (t.Setup w fuel).trace
          → addr = lh ++ ":" ++ decimalSpec lp)
      ∧ (∀ task, Event.go task ∈ (t.Setup w fuel).trace
          → ∃ conn, task = Task.forward tun conn)
      ∧ (∀ conn, (Task.run w (Task.forward tun conn)).trace.head?
          = some (Event.sshDial "tcp" (sh ++ ":" ++ decimalSpec sp) cfg))
      ∧ (∀ conn net addr c, Event.sshDial net addr c ∈ (Task.run w (Task.forward tun conn)).trace
          → addr = sh ++ ":" ++ decimalSpec sp)
      ∧ (∀ conn client net addr,
          Event.clientDial client net addr ∈ (Task.run w (Task.forward tun conn)).trace
          → addr = rh ++ ":" ++ decimalSpec rp)
      ∧ (∀ conn client, w.sshDial "tcp" (sh ++ ":" ++ decimalSpec sp) cfg = Except.ok client
          → Event.clientDial client "tcp" (rh ++ ":" ++ decimalSpec rp)
            ∈ (Task.run w (Task.forward tun conn)).trace) := by
  have htop := applyCalls_topology calls (New lh sh rh lp sp rp)
  rw [← ht] at htop
  simp only [New] at htop
  obtain ⟨a1, a2, a3, a4, a5, a6⟩ := htop
  have htr := Setup_trace_of_config w fuel t pre cfg hcfg
  rw [a1, a2, a3, a4, a5, a6, ← htun] at htr
  have hstart := start_events w fuel tun
  have hL : tun.Local.String = lh ++ ":" ++ decimalSpec lp := by
    rw [Endpoint_String_decimal, htun]
  have hS : tun.Server.String = sh ++ ":" ++ decimalSpec sp := by
    rw [Endpoint_String_decimal, htun]
  have hR : tun.Remote.String = rh ++ ":" ++ decimalSpec rp := by
    rw [Endpoint_String_decimal, htun]
  have hC : tun.Config = cfg := by rw [htun]
  have hpre : pre = [] ∨ pre = [Event.readFile t.Path] := by
    have := sshConfig_trace w t
    rw [hcfg] at this
    exact this
  have hpre2 : ∀ e, e ∈ pre → e = Event.readFile t.Path := by
    intro e he
    rcases hpre with h | h
    · rw [h] at he; simp at he
    · rw [h] at he; simpa using he
  have hfw := fun conn => forward_run w tun conn
  rw [hS, hR, hC] at hfw
  refine ⟨⟨a1, a2, a3, a4, a5, a6⟩, ?_, ?_, ?_, ?_, ?_, ?_, ?_⟩
  · rw [htr]
    obtain ⟨hhead, _⟩ := hstart
    cases hs : (tun.start w fuel).trace with
    | nil => rw [hs] at hhead; simp at hhead
    | cons e es =>
      rw [hs] at hhead
      simp only [List.head?_cons, Option.some.injEq] at hhead
      exact ⟨es, by rw [hhead, hL]⟩
  · intro net addr hmem
    rw [htr, List.mem_append] at hmem
    rcases hmem with h | h
    · exact absurd (hpre2 _ h) (by simp)
    · rcases hstart.2 _ h with h1 | ⟨l, h1⟩ | ⟨c, h1⟩ | ⟨m, h1⟩ | ⟨hd, h1⟩
      · simp only [Event.listen.injEq] at h1
        rw [h1.2, hL]
      · exact absurd h1 (by simp)
      · exact absurd h1 (by simp)
      · exact absurd h1 (by simp)
      · exact absurd h1 (by simp)
  · intro task hmem
    rw [htr, List.mem_append] at hmem
    rcases hmem with h | h
    · exact absurd (hpre2 _ h) (by simp)
    · rcases hstart.2 _ h with h1 | ⟨l, h1⟩ | ⟨c, h1⟩ | ⟨m, h1⟩ | ⟨hd, h1⟩
      · exact absurd h1 (by simp)
      · exact absurd h1 (by simp)
      · simp only [Event.go.injEq] at h1
        exact ⟨c, h1⟩
      · exact absurd h1 (by simp)
      · exact absurd h1 (by simp)
  · intro conn
    simp only [Task.run]
    rw [hfw conn]
    simp
  · intro conn net addr c hmem
    simp only [Task.run] at hmem
    rw [hfw conn] at hmem
    cases hd : w.sshDial "tcp" (sh ++ ":" ++ decimalSpec sp) cfg with
    | error e => simp [hd] at hmem; exact hmem.2.1
    | ok client =>
      cases hc : w.clientDial client "tcp" (rh ++ ":" ++ decimalSpec rp) with
      | error e => simp [hd, hc] at hmem; exact hmem.2.1
      | ok remote => simp [hd, hc] at hmem; exact hmem.2.1
  · intro conn client net addr hmem
    simp only [Task.run] at hmem
    rw [hfw conn] at hmem
    cases hd : w.sshDial "tcp" (sh ++ ":" ++ decimalSpec sp) cfg with
    | error e => simp [hd] at hmem
    | ok client2 =>
      cases hc : w.clientDial client2 "tcp" (rh ++ ":" ++ decimalSpec rp) with
      | error e => simp [hd, hc] at hmem; exact hmem.2.2
      | ok remote => simp [hd, hc] at hmem; exact hmem.2.2
  · intro conn client hd
    simp only [Task.run]
    rw [hfw conn]
    simp [hd]

/-- Witness of C6: `New("127.0.0.1", "s", "r", 8080, 22, 80)` with password
authentication, in the sample environment. -/
theorem Setup_topology_witness :
    ((New "127.0.0.1" "s" "r" 8080 22 80).applyCalls [AuthCall.password "u" "p"]).sshConfig
          sampleWorld
        = { trace := []
            result := Result.returned
              (Except.ok { User := "u", Auth := [AuthMethod.Password "p"] }) }
      ∧ (∃ rest,
          (((New "127.0.0.1" "s" "r" 8080 22 80).applyCalls [AuthCall.password "u" "p"]).Setup
              sampleWorld 5).trace
            = [] ++ Event.listen "tcp" ("127.0.0.1" ++ ":" ++ decimalSpec 8080) :: rest)
      ∧ (∀ conn, (Task.run sampleWorld (Task.forward
            { Local := { Host := "127.0.0.1", Port := 8080 }
              Server := { Host := "s", Port := 22 }
              Remote := { Host := "r", Port := 80 }
              Config := { User := "u", Auth := [AuthMethod.Password "p"] } } conn)).trace.head?
          = some (Event.sshDial "tcp" ("s" ++ ":" ++ decimalSpec 22)
              { User := "u", Auth := [AuthMethod.Password "p"] })) :=
  ⟨rfl,
    (Setup_topology sampleWorld 5 "127.0.0.1" "s" "r" 8080 22 80 [AuthCall.password "u" "p"]
      _ _ [] { User := "u", Auth := [AuthMethod.Password "p"] } rfl rfl rfl).2.1,
    (Setup_topology sampleWorld 5 "127.0.0.1" "s" "r" 8080 22 80 [AuthCall.password "u" "p"]
      _ _ [] { User := "u", Auth := [AuthMethod.Password "p"] } rfl rfl rfl).2.2.2.2.1⟩

/-! ## Setup: the selectors -/

theorem tunnelConf_applyCalls (t : Tunnel) (calls : List AuthCall) (last : AuthCall)
    (cfg : ClientConfig) :
    ((t.applyCalls calls).applyCall last).tunnelConf cfg = t.tunnelConf cfg := by
  obtain ⟨a1, a2, a3, a4, a5, a6⟩ := applyCalls_topology calls t
  obtain ⟨b1, b2, b3, b4, b5, b6⟩ := applyCall_topology (t.applyCalls calls) last
  simp only [Tunnel.tunnelConf, a1, a2, a3, a4, a5, a6, b1, b2, b3, b4, b5, b6]

theorem Setup_password (w : World) (fuel : Nat) (t : Tunnel) (u pw : String)
    (hu : u ≠ "") :
    (t.AuthWithPassword u pw).Setup w fuel
      = Run.bind (SSHTunnel.start w fuel
          ((t.AuthWithPassword u pw).tunnelConf
            { User := u, Auth := [AuthMethod.Password pw] }))
          fun _ => Run.pure none := by
  have hcfg : (t.AuthWithPassword u pw).sshConfig w
      = { trace := []
          result := Result.returned
            (Except.ok { User := u, Auth := [AuthMethod.Password pw] }) } := by
    simp [Tunnel.AuthWithPassword, Tunnel.sshConfig, hu, Run.pure]
  rw [Setup_of_config w fuel _ [] _ hcfg]
  simp [Run.bind, Tunnel.tunnelConf]

theorem Setup_rsaKey (w : World) (fuel : Nat) (t : Tunnel) (u path : String)
    (hu : u ≠ "") :
    (t.AuthWithRSAKey u path).Setup w fuel
      = Run.bind (emit (Event.readFile path)) fun _ =>
          match w.ReadFile path with
          | Except.error err => Run.pure (some err)
          | Except.ok buf =>
            match w.ParsePrivateKey buf with
            | Except.error err => Run.pure (some err)
            | Except.ok key =>
              Run.bind (SSHTunnel.start w fuel
                ((t.AuthWithRSAKey u path).tunnelConf
                  { User := u, Auth := [AuthMethod.PublicKeys [key]] }))
                fun _ => Run.pure none := by
  simp only [Tunnel.Setup, Tunnel.sshConfig, Tunnel.AuthWithRSAKey, hu, if_false, if_true,
    getKeyFile, Tunnel.tunnelConf]
  cases hr : w.ReadFile path with
  | error e => simp [Run.bind, Run.pure, emit]
  | ok buf =>
    cases hp : w.ParsePrivateKey buf with
    | error e => simp [Run.bind, Run.pure, emit, hp]
    | ok key => simp [Run.bind, Run.pure, emit, hp]

theorem bind_start_trace (w : World) (fuel : Nat) (tun : SSHTunnel) :
    (Run.bind (SSHTunnel.start w fuel tun) fun _ => (Run.pure none : Run (Option Error))).trace
      = (tun.start w fuel).trace := by
  generalize SSHTunnel.start w fuel tun = r
  obtain ⟨tr, res⟩ := r
  cases res <;> simp [Run.bind, Run.pure]

theorem start_no_readFile (w : World) (fuel : Nat) (tun : SSHTunnel) (f : String) :
    Event.readFile f ∉ (tun.start w fuel).trace := by
  intro hmem
  rcases (start_events w fuel tun).2 _ hmem with h | ⟨l, h⟩ | ⟨c, h⟩ | ⟨m, h⟩ | ⟨hd, h⟩ <;>
    exact absurd h (by simp)

theorem start_tasks (w : World) (fuel : Nat) (tun : SSHTunnel) (task : Task)
    (hmem : Event.go task ∈ (tun.start w fuel).trace) :
    ∃ conn, task = Task.forward tun conn := by
  rcases (start_events w fuel tun).2 _ hmem with h | ⟨l, h⟩ | ⟨c, h⟩ | ⟨m, h⟩ | ⟨hd, h⟩
  · exact absurd h (by simp)
  · exact absurd h (by simp)
  · simp only [Event.go.injEq] at h
    exact ⟨c, h⟩
  · exact absurd h (by simp)
  · exact absurd h (by simp)

/-- C5: after any sequence of selector calls on any tunnel, what `Setup` does depends
on the last call only. After `AuthWithPassword(u, pw)` with a username, `Setup` is
`start` run on the tunnel whose configuration is user `u` with the single method
password `pw`; it reads no file, whatever path an earlier call stored, and every
forwarder it starts carries that configuration. After `AuthWithRSAKey(u, path)` with a
username, `Setup` reads the file at `path` and, when the key loads, is `start` run on
the tunnel whose configuration is user `u` with the single public-key method of that
key, whatever password an earlier call stored. With an empty `u` no configuration is
built and `Setup` returns the missing-credentials error. -/
theorem Setup_uses_last_selector (w : World) (fuel : Nat) (t : Tunnel)
    (calls : List AuthCall) (u : String) :
    (∀ pw : String,
        (t.applyCalls (calls ++ [AuthCall.password u pw])).Setup w fuel
          = (if u = "" then
              { trace := [], result := Result.returned (some "Authentication not found") }
            else
              Run.bind (SSHTunnel.start w fuel
                (t.tunnelConf { User := u, Auth := [AuthMethod.Password pw] }))
                fun _ => Run.pure none)
        ∧ (∀ f : String, Event.readFile f
            ∉ ((t.applyCalls (calls ++ [AuthCall.password u pw])).Setup w fuel).trace)
        ∧ (∀ task : Task, Event.go task
            ∈ ((t.applyCalls (calls ++ [AuthCall.password u pw])).Setup w fuel).trace →
            ∃ conn, task = Task.forward
              (t.tunnelConf { User := u, Auth := [AuthMethod.Password pw] }) conn)
        ∧ (t.applyCalls (calls ++ [AuthCall.password u pw])).sshConfig w
          = (if u = "" then
              { trace := []
                result := Result.returned (Except.error "Authentication not found") }
            else
              { trace := []
                result := Result.returned
                  (Except.ok { User := u, Auth := [AuthMethod.Password pw] }) }))
      ∧ (∀ path : String,
        (t.applyCalls (calls ++ [AuthCall.rsaKey u path])).Setup w fuel
          = (if u = "" then
              { trace := [], result := Result.returned (some "Authentication not found") }
            else
              Run.bind (emit (Event.readFile path)) fun _ =>
                match w.ReadFile path with
                | Except.error err => Run.pure (some err)
                | Except.ok buf =>
                  match w.ParsePrivateKey buf with
                  | Except.error err => Run.pure (some err)
                  | Except.ok key =>
                    Run.bind (SSHTunnel.start w fuel
                      (t.tunnelConf { User := u, Auth := [AuthMethod.PublicKeys [key]] }))
                      fun _ => Run.pure none)
        ∧ (∀ (buf : List Nat) (key : Signer) (task : Task),
            w.ReadFile path = Except.ok buf → w.ParsePrivateKey buf = Except.ok key →
            Event.go task
              ∈ ((t.applyCalls (calls ++ [AuthCall.rsaKey u path])).Setup w fuel).trace →
            ∃ conn, task = Task.forward
              (t.tunnelConf { User := u, Auth := [AuthMethod.PublicKeys [key]] }) conn)
        ∧ (t.applyCalls (calls ++ [AuthCall.rsaKey u path])).sshConfig w
          = (if u = "" then
              { trace := []
                result := Result.returned (Except.error "Authentication not found") }
            else
              { trace := [Event.readFile path]
                result := Result.returned
                  (match w.ReadFile path with
                   | Except.error err => Except.error err
                   | Except.ok buf =>
                     match w.ParsePrivateKey buf with
                     | Except.error err => Except.error err
                     | Except.ok key =>
                       Except.ok { User := u, Auth := [AuthMethod.PublicKeys [key]] }) }))
      ∧ (∀ last : AuthCall, (t.applyCalls (calls ++ [last])).Setup w fuel
        = (t.applyCall last).Setup w fuel) := by
  refine ⟨?_, ?_, ?_⟩
  · intro pw
    have hS : (t.applyCalls (calls ++ [AuthCall.password u pw])).Setup w fuel
          = (if u = "" then
              { trace := [], result := Result.returned (some "Authentication not found") }
            else
              Run.bind (SSHTunnel.start w fuel
                (t.tunnelConf { User := u, Auth := [AuthMethod.Password pw] }))
                fun _ => Run.pure none) := by
      rw [applyCalls_snoc]
      by_cases hu : u = ""
      · simp [Tunnel.applyCall, Tunnel.AuthWithPassword, Tunnel.Setup, Tunnel.sshConfig, hu,
          Run.pure, Run.bind]
      · have h1 := Setup_password w fuel (t.applyCalls calls) u pw hu
        have h2 := tunnelConf_applyCalls t calls (AuthCall.password u pw)
          { User := u, Auth := [AuthMethod.Password pw] }
        simp only [Tunnel.applyCall] at h2 ⊢
        rw [h1, h2]
        simp [hu]
    refine ⟨hS, ?_, ?_, ?_⟩
    · intro f
      rw [hS]
      by_cases hu : u = ""
      · simp [hu]
      · simp only [hu, if_false, bind_start_trace]
        exact start_no_readFile w fuel _ f
    · intro task hmem
      rw [hS] at hmem
      by_cases hu : u = ""
      · simp [hu] at hmem
      · simp only [hu, if_false, bind_start_trace] at hmem
        exact start_tasks w fuel _ task hmem
    · rw [applyCalls_snoc]
      by_cases hu : u = ""
      · simp [Tunnel.applyCall, Tunnel.AuthWithPassword, Tunnel.sshConfig, hu, Run.pure]
      · simp [Tunnel.applyCall, Tunnel.AuthWithPassword, Tunnel.sshConfig, hu, Run.pure]
  · intro path
    have hS : (t.applyCalls (calls ++ [AuthCall.rsaKey u path])).Setup w fuel
          = (if u = "" then
              { trace := [], result := Result.returned (some "Authentication not found") }
            else
              Run.bind (emit (Event.readFile path)) fun _ =>
                match w.ReadFile path with
                | Except.error err => Run.pure (some err)
                | Except.ok buf =>
                  match w.ParsePrivateKey buf with
                  | Except.error err => Run.pure (some err)
                  | Except.ok key =>
                    Run.bind (SSHTunnel.start w fuel
                      (t.tunnelConf { User := u, Auth := [AuthMethod.PublicKeys [key]] }))
                      fun _ => Run.pure none) := by
      rw [applyCalls_snoc]
      by_cases hu : u = ""
      · simp [Tunnel.applyCall, Tunnel.AuthWithRSAKey, Tunnel.Setup, Tunnel.sshConfig, hu,
          Run.pure, Run.bind]
      · have h1 := Setup_rsaKey w fuel (t.applyCalls calls) u path hu
        have h2 := fun cfg => tunnelConf_applyCalls t calls (AuthCall.rsaKey u path) cfg
        simp only [Tunnel.applyCall] at h2 ⊢
        rw [h1]
        simp only [h2, hu, if_false]
    refine ⟨hS, ?_, ?_⟩
    · intro buf key task hr hp hmem
      rw [hS] at hmem
      by_cases hu : u = ""
      · simp [hu] at hmem
      · simp only [hu, if_false, hr, hp, bind_emit, List.mem_cons, bind_start_trace] at hmem
        rcases hmem with h | h
        · exact absurd h (by simp)
        · exact start_tasks w fuel _ task h
    · rw [applyCalls_snoc]
      by_cases hu : u = ""
      · simp [Tunnel.applyCall, Tunnel.AuthWithRSAKey, Tunnel.sshConfig, hu, Run.pure]
      · simp only [Tunnel.applyCall, Tunnel.AuthWithRSAKey, Tunnel.sshConfig, hu, if_false,
          if_true, getKeyFile]
        cases hr : w.ReadFile path with
        | error e => simp [Run.bind, Run.pure, emit]
        | ok buf =>
          cases hp : w.ParsePrivateKey buf with
          | error e => simp [Run.bind, Run.pure, emit, hp]
          | ok key => simp [Run.bind, Run.pure, emit, hp]
  · intro last
    rw [applyCalls_snoc]
    obtain ⟨a1, a2, a3, a4, a5, a6⟩ := applyCalls_topology calls t
    cases last with
    | rsaKey un path =>
      simp [Tunnel.applyCall, Tunnel.AuthWithRSAKey, Tunnel.Setup, Tunnel.sshConfig,
        a1, a2, a3, a4, a5, a6]
    | password un pw =>
      simp [Tunnel.applyCall, Tunnel.AuthWithPassword, Tunnel.Setup, Tunnel.sshConfig,
        a1, a2, a3, a4, a5, a6]

/-- Witness of C5: key authentication with the missing file `nokey` is selected first
and password authentication last; `Setup` reads no file and runs `start` with the
password configuration. -/
theorem Setup_uses_last_selector_witness :
    ((New "127.0.0.1" "s" "r" 8080 22 80).applyCalls
          ([AuthCall.rsaKey "k" "nokey"] ++ [AuthCall.password "u" "p"])).Setup sampleWorld 5
        = (if ("u" : String) = "" then
            { trace := [], result := Result.returned (some "Authentication not found") }
          else
            Run.bind (SSHTunnel.start sampleWorld 5
              ((New "127.0.0.1" "s" "r" 8080 22 80).tunnelConf
                { User := "u", Auth := [AuthMethod.Password "p"] }))
              fun _ => Run.pure none)
      ∧ (∀ f : String, Event.readFile f
          ∉ (((New "127.0.0.1" "s" "r" 8080 22 80).applyCalls
              ([AuthCall.rsaKey "k" "nokey"] ++ [AuthCall.password "u" "p"])).Setup
                sampleWorld 5).trace) :=
  ⟨((Setup_uses_last_selector sampleWorld 5 (New "127.0.0.1" "s" "r" 8080 22 80)
      [AuthCall.rsaKey "k" "nokey"] "u").1 "p").1,
    ((Setup_uses_last_selector sampleWorld 5 (New "127.0.0.1" "s" "r" 8080 22 80)
      [AuthCall.rsaKey "k" "nokey"] "u").1 "p").2.1⟩

end tunnel
